import Mathlib

/-!
Verification of the CodeThreat AppSec GitHub Action against its
natural-language specification.  The TypeScript sources
(`src/lib/inputs.ts`, `src/lib/outputs.ts`, `src/lib/sarif-uploader.ts`,
`src/lib/action.ts`, `src/index.ts`) are shallowly embedded below:
JavaScript strings become `List Char` (or `String` where only equality is
needed), JavaScript numbers produced by `parseInt` become `Option Int`
(`none` models `NaN`), thrown exceptions become `Except String`.
-/

set_option maxRecDepth 4000

deriving instance DecidableEq for Except

/-- `Except.isError`-style discriminator used throughout. -/
def isErr {ε α : Type} : Except ε α → Bool
  | .error _ => true
  | .ok _ => false

@[simp] theorem isErr_error {ε α : Type} (e : ε) : isErr (α := α) (.error e) = true := rfl

@[simp] theorem isErr_ok {ε α : Type} (a : α) : isErr (ε := ε) (.ok a) = false := rfl

/-! ## JavaScript number model

`parseInt` returns either an integer or `NaN`.  We model a JS number of
that shape as `Option Int`, with `none` standing for `NaN`.  Every
comparison against `NaN` is false in JavaScript. -/

/-- JS `a < b` where `a` may be `NaN` (`none`). -/
def jsLt (a : Option Int) (b : Int) : Bool :=
  match a with
  | none => false
  | some x => decide (x < b)

/-- JS `a > b` where `a` may be `NaN` (`none`). -/
def jsGt (a : Option Int) (b : Int) : Bool :=
  match a with
  | none => false
  | some x => decide (b < x)

/-- JS `a > b` where `b` may be `NaN` (`none`), `a` an actual number. -/
def jsGtNum (a : Int) (b : Option Int) : Bool :=
  match b with
  | none => false
  | some y => decide (y < a)

/-- Is the character one of the whitespace characters skipped by `parseInt`. -/
def isJsSpace (c : Char) : Bool :=
  c = ' ' ∨ c = '\t' ∨ c = '\n' ∨ c = '\r' ∨ c = '\x0b' ∨ c = '\x0c'

/-- ASCII decimal digit test. -/
def isDigitChar (c : Char) : Bool :=
  '0' ≤ c ∧ c ≤ '9'

/-- ASCII hexadecimal digit test. -/
def isHexDigitChar (c : Char) : Bool :=
  isDigitChar c ∨ ('a' ≤ c ∧ c ≤ 'f') ∨ ('A' ≤ c ∧ c ≤ 'F')

/-- Numeric value of a decimal digit run (most significant first). -/
def decValue (ds : List Char) : Nat :=
  ds.foldl (fun a c => 10 * a + (c.toNat - 48)) 0

/-- Numeric value of one hex digit. -/
def hexDigitVal (c : Char) : Nat :=
  if isDigitChar c then c.toNat - 48
  else if 'a' ≤ c ∧ c ≤ 'f' then c.toNat - 87
  else c.toNat - 55

/-- Numeric value of a hex digit run (most significant first). -/
def hexValue (ds : List Char) : Nat :=
  ds.foldl (fun a c => 16 * a + hexDigitVal c) 0

/-- Decimal branch of `parseInt`: maximal digit run; no digits means `NaN`. -/
def decParse (sign : Int) (s : List Char) : Option Int :=
  let d := s.takeWhile isDigitChar
  if d = [] then none else some (sign * (decValue d : Int))

/-- JavaScript `parseInt(s)` (radix auto-detected): skip whitespace, optional
sign, `0x`/`0X` switches to hexadecimal, then the maximal digit run; if no
digit is found the result is `NaN` (`none`). -/
def jsParseInt (s : List Char) : Option Int :=
  let s1 := s.dropWhile isJsSpace
  match s1 with
  | '-' :: t => jsParseIntBody (-1) t
  | '+' :: t => jsParseIntBody 1 t
  | _ => jsParseIntBody 1 s1
where
  jsParseIntBody (sign : Int) (s : List Char) : Option Int :=
    match s with
    | '0' :: x :: t =>
      if x = 'x' ∨ x = 'X' then
        let h := t.takeWhile isHexDigitChar
        if h = [] then none else some (sign * (hexValue h : Int))
      else decParse sign s
    | _ => decParse sign s

/-! ## Configuration resolver (`src/lib/inputs.ts`) -/

/-- Mirror of the TypeScript `ActionInputs` interface.  The three
`parseInt`-produced fields are JS numbers (`Option Int`, `none` = `NaN`). -/
structure ActionInputs where
  apiKey : String
  serverUrl : String
  organizationSlug : String
  repositoryUrl : String
  branch : String
  scanTypes : List String
  waitForCompletion : Bool
  timeout : Option Int
  pollInterval : Option Int
  outputFormat : String
  outputFile : String
  uploadSarif : Bool
  failOnCritical : Bool
  failOnHigh : Bool
  maxViolations : Option Int
  skipImport : Bool
  verbose : Bool
  deriving Repr, DecidableEq

/-- The raw environment read by `parseInputs`: `core.getInput` values (empty
string when an input is unset), `core.getBooleanInput` values (already parsed
by the host runtime) and the GitHub context fields it consults. -/
structure RawInputs where
  apiKey : String
  organizationSlug : String
  serverUrl : String
  waitForCompletion : Bool
  uploadSarif : Bool
  failOnCritical : Bool
  failOnHigh : Bool
  skipImport : Bool
  verbose : Bool
  timeout : String
  pollInterval : String
  maxViolations : String
  outputFormat : String
  outputFile : String
  repositoryUrl : String
  branch : String
  contextOwner : String
  contextRepo : String
  contextRef : String
  deriving Repr

/-- JS `String.prototype.replace` with a plain-string pattern: replace the
first occurrence of `pat` (scanning left to right) by `rep`. -/
def replaceFirst (pat rep : List Char) : List Char → List Char
  | [] => if pat = [] then rep else []
  | c :: t =>
    if pat.isPrefixOf (c :: t) then rep ++ (c :: t).drop pat.length
    else c :: replaceFirst pat rep t

/-- The valid output formats accepted by `parseInputs`. -/
def validFormats : List String := ["json", "sarif", "csv", "xml", "junit"]

/-- Shallow embedding of `parseInputs` from `src/lib/inputs.ts`, in source
order: required `api-key` and `organization-slug`, numeric parsing with
defaults (`43200`, `30`, `0`), the two range validations, the output-format
whitelist, the derived output file name, the GitHub-context defaults for
repository URL and branch, and the required `server-url` (read while the
result object is built, i.e. after every other check). -/
def parseInputs (raw : RawInputs) : Except String ActionInputs :=
  if raw.apiKey = "" then
    .error "Input required and not supplied: api-key"
  else if raw.organizationSlug = "" then
    .error "Input required and not supplied: organization-slug"
  else
    let timeout := jsParseInt (if raw.timeout = "" then "43200" else raw.timeout).toList
    let pollInterval := jsParseInt (if raw.pollInterval = "" then "30" else raw.pollInterval).toList
    let maxViolations := jsParseInt (if raw.maxViolations = "" then "0" else raw.maxViolations).toList
    if jsLt timeout 60 || jsGt timeout 86400 then
      .error "Timeout must be between 60 and 86400 seconds (1 minute to 24 hours)"
    else if jsLt pollInterval 10 || jsGt pollInterval 60 then
      .error "Poll interval must be between 10 and 60 seconds"
    else
      let outputFormat := if raw.outputFormat = "" then "sarif" else raw.outputFormat
      if ¬ validFormats.contains outputFormat then
        .error ("Invalid output format: " ++ outputFormat ++ ". Valid formats: json, sarif, csv, xml, junit")
      else
        let outputFile :=
          if raw.outputFile = "" then
            "codethreat-results." ++ (if outputFormat = "junit" then "xml" else outputFormat)
          else raw.outputFile
        let repositoryUrl :=
          if raw.repositoryUrl = "" then
            "https://github.com/" ++ raw.contextOwner ++ "/" ++ raw.contextRepo ++ ".git"
          else raw.repositoryUrl
        let branch :=
          if raw.branch = "" then
            (replaceFirst "refs/heads/".toList [] raw.contextRef.toList).asString
          else raw.branch
        if raw.serverUrl = "" then
          .error "Input required and not supplied: server-url"
        else
          .ok {
            apiKey := raw.apiKey
            serverUrl := raw.serverUrl
            organizationSlug := raw.organizationSlug
            repositoryUrl := repositoryUrl
            branch := branch
            scanTypes := []
            waitForCompletion := raw.waitForCompletion
            timeout := timeout
            pollInterval := pollInterval
            outputFormat := outputFormat
            outputFile := outputFile
            uploadSarif := raw.uploadSarif
            failOnCritical := raw.failOnCritical
            failOnHigh := raw.failOnHigh
            maxViolations := maxViolations
            skipImport := raw.skipImport
            verbose := raw.verbose
          }

/-- A fixed, otherwise-valid raw environment used to isolate the numeric
inputs in the theorems below. -/
def baseRaw : RawInputs :=
  { apiKey := "test-api-key"
    organizationSlug := "acme"
    serverUrl := "https://api.codethreat.com"
    waitForCompletion := true
    uploadSarif := true
    failOnCritical := false
    failOnHigh := false
    skipImport := false
    verbose := false
    timeout := ""
    pollInterval := ""
    maxViolations := ""
    outputFormat := ""
    outputFile := ""
    repositoryUrl := ""
    branch := ""
    contextOwner := "acme"
    contextRepo := "widget"
    contextRef := "refs/heads/main" }

/-- `baseRaw` with the three numeric input strings substituted. -/
def mkRawNums (rt rp rm : String) : RawInputs :=
  { baseRaw with timeout := rt, pollInterval := rp, maxViolations := rm }

/-- C2: for every integer timeout input the configuration resolver raises an
error exactly when the timeout lies outside `[60, 86400]` seconds, and for
every integer poll-interval input exactly when it lies outside `[10, 60]`
seconds; the boundary values 60, 86400, 10 and 60 are accepted and 59, 86401,
9 and 61 are rejected. -/
theorem parseInputs_numeric_ranges :
    (∀ (rt rp : String) (t p : Int), rt ≠ "" → rp ≠ "" →
      jsParseInt rt.toList = some t → jsParseInt rp.toList = some p →
      (isErr (parseInputs (mkRawNums rt rp "0")) = true ↔
        (t < 60 ∨ 86400 < t ∨ p < 10 ∨ 60 < p)))
    ∧ isErr (parseInputs (mkRawNums "60" "10" "0")) = false
    ∧ isErr (parseInputs (mkRawNums "86400" "60" "0")) = false
    ∧ isErr (parseInputs (mkRawNums "59" "30" "0")) = true
    ∧ isErr (parseInputs (mkRawNums "86401" "30" "0")) = true
    ∧ isErr (parseInputs (mkRawNums "43200" "9" "0")) = true
    ∧ isErr (parseInputs (mkRawNums "43200" "61" "0")) = true := by
  refine ⟨?_, by decide, by decide, by decide, by decide, by decide, by decide⟩
  intro rt rp t p hrt hrp hpt hpp
  simp only [parseInputs, mkRawNums, baseRaw, if_neg hrt, if_neg hrp, hpt, hpp, jsLt, jsGt,
    validFormats]
  norm_num
  rw [if_neg (by decide : ¬ ("test-api-key" = "")), if_neg (by decide : ¬ ("acme" = "")),
    if_neg (by decide : ¬ ("https://api.codethreat.com" = ""))]
  by_cases h1 : t < 60 ∨ 86400 < t
  · rw [if_pos h1]
    exact ⟨fun _ => by omega, fun _ => rfl⟩
  · by_cases h2 : p < 10 ∨ 60 < p
    · rw [if_neg h1, if_pos h2]
      exact ⟨fun _ => by omega, fun _ => rfl⟩
    · rw [if_neg h1, if_neg h2, isErr_ok]
      exact ⟨fun h => absurd h (by decide), fun h => absurd h (by omega)⟩

/-- Witness for C2: a valid in-range pair is accepted. -/
theorem parseInputs_numeric_ranges_witness :
    isErr (parseInputs (mkRawNums "120" "30" "0")) = false := by
  have h := parseInputs_numeric_ranges.1 "120" "30" 120 30 (by decide) (by decide)
    (by decide) (by decide)
  have h2 : ¬ ((120:Int) < 60 ∨ 86400 < (120:Int) ∨ (30:Int) < 10 ∨ 60 < (30:Int)) := by omega
  cases hb : isErr (parseInputs (mkRawNums "120" "30" "0")) with
  | false => rfl
  | true => exact absurd (h.mp hb) h2

/-- C9: when the timeout, poll-interval and max-violations inputs are
non-empty strings that do not parse as integers, `parseInt` yields `NaN`
(`none` in this model), `NaN` satisfies neither side of the range
comparisons, and `parseInputs` raises no error but returns a configuration
whose numeric fields are `NaN`. -/
theorem parseInputs_nan_silently_accepted :
    ∀ (raw : RawInputs), raw.apiKey ≠ "" → raw.organizationSlug ≠ "" → raw.serverUrl ≠ "" →
      raw.outputFormat = "" →
      raw.timeout ≠ "" → raw.pollInterval ≠ "" → raw.maxViolations ≠ "" →
      jsParseInt raw.timeout.toList = none →
      jsParseInt raw.pollInterval.toList = none →
      jsParseInt raw.maxViolations.toList = none →
      isErr (parseInputs raw) = false ∧
      (parseInputs raw).map (fun c => (c.timeout, c.pollInterval, c.maxViolations)) =
        .ok (none, none, none) := by
  intro raw hk ho hs hf ht hp hm hpt hpp hpm
  simp only [parseInputs, if_neg hk, if_neg ho, if_neg hs, if_pos hf, if_neg ht, if_neg hp,
    if_neg hm, hpt, hpp, hpm, jsLt, jsGt, validFormats, Except.map]
  norm_num

/-- Witness for C9: the non-numeric input string "abc" is silently accepted
for all three numeric inputs, producing `NaN` fields. -/
theorem parseInputs_nan_witness :
    isErr (parseInputs (mkRawNums "abc" "abc" "abc")) = false ∧
    (parseInputs (mkRawNums "abc" "abc" "abc")).map
      (fun c => (c.timeout, c.pollInterval, c.maxViolations)) = .ok (none, none, none) :=
  parseInputs_nan_silently_accepted (mkRawNums "abc" "abc" "abc") (by decide) (by decide)
    (by decide) (by decide) (by decide) (by decide) (by decide) (by decide) (by decide)
    (by decide)

/-! ## URL normalization (`CodeThreatAction.normalizeGitHubUrl`)

JS strings are embedded as `List Char`; anchored regex replaces become
prefix replacement. -/

/-- `"git://"`. -/
def gitProt : List Char := "git://".toList

/-- `"git@github.com:"`. -/
def sshPre : List Char := "git@github.com:".toList

/-- `"https://"`. -/
def httpsProt : List Char := "https://".toList

/-- `"http://"`. -/
def httpProt : List Char := "http://".toList

/-- `"https://github.com/"`. -/
def ghHttps : List Char := "https://github.com/".toList

/-- `"github.com"`. -/
def ghPre : List Char := "github.com".toList

/-- `".git"`. -/
def dotGit : List Char := ".git".toList

/-- `u.replace(/^pat/, r)`: replace the prefix `p` by `r` when present. -/
def replacePrefix (p r u : List Char) : List Char :=
  if p <+: u then r ++ u.drop p.length else u

/-- Third step of `normalizeGitHubUrl`: if the URL has no HTTP(S) protocol
and starts with `github.com`, prepend `https://`. -/
def normStep3 (u : List Char) : List Char :=
  if ¬ (httpsProt <+: u) ∧ ¬ (httpProt <+: u) then
    (if ghPre <+: u then httpsProt ++ u else u)
  else u

/-- Fourth step of `normalizeGitHubUrl`: append `.git` when absent. -/
def normStep4 (u : List Char) : List Char :=
  if dotGit <:+ u then u else u ++ dotGit

/-- Shallow embedding of `CodeThreatAction.normalizeGitHubUrl`
(`src/lib/action.ts`): empty (falsy) input is returned unchanged; otherwise
rewrite `git://` to `https://`, rewrite the SSH form
`git@github.com:` to `https://github.com/`, prepend `https://` to a bare
`github.com...` path, and append `.git` when absent. -/
def normalizeGitHubUrl (url : List Char) : List Char :=
  if url = [] then url
  else normStep4 (normStep3 (replacePrefix sshPre ghHttps (replacePrefix gitProt httpsProt url)))

/-- The shape every output of `normalizeGitHubUrl` (on nonempty input) has;
on such strings the function is the identity. -/
def isNormalized (u : List Char) : Prop :=
  u ≠ [] ∧ ¬ (gitProt <+: u) ∧ ¬ (sshPre <+: u) ∧
    (httpsProt <+: u ∨ httpProt <+: u ∨ ¬ (ghPre <+: u)) ∧ dotGit <:+ u

/-- Two prefixes of the same list are comparable. -/
lemma prefixTotal {α : Type} : ∀ {l1 l2 l3 : List α}, l1 <+: l3 → l2 <+: l3 →
    l1 <+: l2 ∨ l2 <+: l1 := by
  intro l1 l2 l3
  induction l3 generalizing l1 l2 with
  | nil =>
    intro h1 _
    rw [List.prefix_nil] at h1
    subst h1
    exact Or.inl (List.nil_prefix)
  | cons a t ih =>
    intro h1 h2
    match l1, h1 with
    | [], _ => exact Or.inl (List.nil_prefix)
    | b :: t1, ⟨r1, hr1⟩ =>
      match l2, h2 with
      | [], _ => exact Or.inr (List.nil_prefix)
      | c :: t2, ⟨r2, hr2⟩ =>
        injection hr1 with hb hr1t
        injection hr2 with hc hr2t
        subst hb
        subst hc
        rcases ih ⟨r1, hr1t⟩ ⟨r2, hr2t⟩ with h | h
        · obtain ⟨w, hw⟩ := h
          exact Or.inl ⟨w, by simp [hw]⟩
        · obtain ⟨w, hw⟩ := h
          exact Or.inr ⟨w, by simp [hw]⟩

/-- If `q` is a prefix of `u` and `p` is incomparable with `q`, then `p` is
not a prefix of `u`. -/
lemma prefix_incomp {p q u : List Char} (hq : q <+: u) (h1 : ¬ p <+: q) (h2 : ¬ q <+: p) :
    ¬ p <+: u :=
  fun hp => (prefixTotal hp hq).elim h1 h2

/-- Cancel a common left factor of two prefixes. -/
lemma prefix_cancel {α : Type} {s r t : List α} (h : s ++ r <+: s ++ t) : r <+: t := by
  induction s with
  | nil => simpa using h
  | cons a s ih =>
    apply ih
    obtain ⟨w, hw⟩ := h
    injection hw with _ hw2
    exact ⟨w, hw2⟩

/-- Appending `t` cannot create a prefix `p` unless some tail of `p` starts
`t`. -/
lemma not_prefix_append {p : List Char} (s t : List Char) (h : ¬ p <+: s)
    (h2 : ∀ k, k < p.length → ¬ p.drop k <+: t) : ¬ p <+: s ++ t := by
  intro hp
  rcases prefixTotal hp (List.prefix_append s t) with hps | hsp
  · exact h hps
  · obtain ⟨r, hr⟩ := hsp
    cases r with
    | nil =>
      apply h
      rw [← hr, List.append_nil]
    | cons b rt =>
      have hd : p.drop s.length = b :: rt := by
        rw [← hr]
        simp
      have hlen : s.length < p.length := by
        rw [← hr]
        simp
      have hrt : b :: rt <+: t := by
        apply prefix_cancel (s := s)
        rw [hr]
        exact hp
      exact h2 s.length hlen (hd ▸ hrt)

/-- The first rewrite never leaves a `git://` prefix. -/
lemma step1_no_git (u : List Char) : ¬ (gitProt <+: replacePrefix gitProt httpsProt u) := by
  unfold replacePrefix
  by_cases h : gitProt <+: u
  · rw [if_pos h]
    exact prefix_incomp (List.prefix_append httpsProt _) (by decide) (by decide)
  · rw [if_neg h]
    exact h

/-- The SSH rewrite leaves neither a `git://` nor a `git@github.com:`
prefix. -/
lemma step2_props (u : List Char) (hA : ¬ (gitProt <+: u)) :
    ¬ (gitProt <+: replacePrefix sshPre ghHttps u) ∧
      ¬ (sshPre <+: replacePrefix sshPre ghHttps u) := by
  unfold replacePrefix
  by_cases h : sshPre <+: u
  · rw [if_pos h]
    exact ⟨prefix_incomp (List.prefix_append ghHttps _) (by decide) (by decide),
      prefix_incomp (List.prefix_append ghHttps _) (by decide) (by decide)⟩
  · rw [if_neg h]
    exact ⟨hA, h⟩

/-- The protocol-prepending step preserves the two negative facts and
guarantees the protocol disjunction. -/
lemma step3_props (u : List Char) (hA : ¬ (gitProt <+: u)) (hB : ¬ (sshPre <+: u)) :
    ¬ (gitProt <+: normStep3 u) ∧ ¬ (sshPre <+: normStep3 u) ∧
      (httpsProt <+: normStep3 u ∨ httpProt <+: normStep3 u ∨ ¬ (ghPre <+: normStep3 u)) := by
  unfold normStep3
  by_cases hc : ¬ (httpsProt <+: u) ∧ ¬ (httpProt <+: u)
  · rw [if_pos hc]
    by_cases hg : ghPre <+: u
    · rw [if_pos hg]
      exact ⟨prefix_incomp (List.prefix_append httpsProt u) (by decide) (by decide),
        prefix_incomp (List.prefix_append httpsProt u) (by decide) (by decide),
        Or.inl (List.prefix_append _ _)⟩
    · rw [if_neg hg]
      exact ⟨hA, hB, Or.inr (Or.inr hg)⟩
  · rw [if_neg hc]
    refine ⟨hA, hB, ?_⟩
    rcases not_and_or.mp hc with h | h
    · exact Or.inl (not_not.mp h)
    · exact Or.inr (Or.inl (not_not.mp h))

/-- Appending `.git` (when needed) yields a fully normalized string. -/
lemma step4_props (u : List Char) (hA : ¬ (gitProt <+: u)) (hB : ¬ (sshPre <+: u))
    (hC : httpsProt <+: u ∨ httpProt <+: u ∨ ¬ (ghPre <+: u)) :
    isNormalized (normStep4 u) := by
  unfold normStep4 isNormalized
  by_cases hs : dotGit <:+ u
  · rw [if_pos hs]
    refine ⟨?_, hA, hB, hC, hs⟩
    obtain ⟨w, hw⟩ := hs
    intro he
    rw [he] at hw
    exact absurd (List.append_eq_nil.mp hw).2 (by decide)
  · rw [if_neg hs]
    refine ⟨?_, ?_, ?_, ?_, List.suffix_append u dotGit⟩
    · intro he
      exact absurd (List.append_eq_nil.mp he).2 (by decide)
    · exact not_prefix_append u dotGit hA (by decide)
    · exact not_prefix_append u dotGit hB (by decide)
    · rcases hC with h | h | h
      · exact Or.inl (h.trans (List.prefix_append u dotGit))
      · exact Or.inr (Or.inl (h.trans (List.prefix_append u dotGit)))
      · exact Or.inr (Or.inr (not_prefix_append u dotGit h (by decide)))

/-- On nonempty input, `normalizeGitHubUrl` produces a normalized string. -/
lemma normalizeGitHubUrl_normalized (u : List Char) (hu : u ≠ []) :
    isNormalized (normalizeGitHubUrl u) := by
  unfold normalizeGitHubUrl
  rw [if_neg hu]
  have h1 := step1_no_git u
  have h2 := step2_props _ h1
  have h3 := step3_props _ h2.1 h2.2
  exact step4_props _ h3.1 h3.2.1 h3.2.2

/-- `normalizeGitHubUrl` is the identity on normalized strings. -/
lemma normalizeGitHubUrl_fixed (u : List Char) (h : isNormalized u) :
    normalizeGitHubUrl u = u := by
  obtain ⟨hne, hA, hB, hC, hS⟩ := h
  unfold normalizeGitHubUrl replacePrefix normStep3 normStep4
  rw [if_neg hne, if_neg hA, if_neg hB]
  by_cases hc : ¬ (httpsProt <+: u) ∧ ¬ (httpProt <+: u)
  · rw [if_pos hc]
    have hg : ¬ (ghPre <+: u) := by
      rcases hC with h | h | h
      · exact absurd h hc.1
      · exact absurd h hc.2
      · exact h
    rw [if_neg hg, if_pos hS]
  · rw [if_neg hc, if_pos hS]

/-- C4: URL normalization is idempotent, and on the canonical examples the
SSH form, the `git://` form and the bare `github.com/owner/repo` form all
map to `https://github.com/acme/widget.git`. -/
theorem normalizeGitHubUrl_idempotent :
    (∀ u : List Char, normalizeGitHubUrl (normalizeGitHubUrl u) = normalizeGitHubUrl u)
    ∧ normalizeGitHubUrl "git@github.com:acme/widget.git".toList =
        "https://github.com/acme/widget.git".toList
    ∧ normalizeGitHubUrl "git://github.com/acme/widget.git".toList =
        "https://github.com/acme/widget.git".toList
    ∧ normalizeGitHubUrl "github.com/acme/widget".toList =
        "https://github.com/acme/widget.git".toList := by
  refine ⟨?_, by decide, by decide, by decide⟩
  intro u
  by_cases hu : u = []
  · rw [hu]
    rfl
  · exact normalizeGitHubUrl_fixed _ (normalizeGitHubUrl_normalized u hu)

/-- Counterexample for C5: `gitlab.com/acme/widget` is a non-empty
protocol-less `host/owner/repo` URL, yet the normalized result gets no
protocol prefixed (only the `.git` suffix is added). -/
theorem normalizeGitHubUrl_no_protocol_counterexample :
    normalizeGitHubUrl "gitlab.com/acme/widget".toList = "gitlab.com/acme/widget.git".toList
    ∧ ¬ (httpsProt <+: normalizeGitHubUrl "gitlab.com/acme/widget".toList)
    ∧ ¬ (httpProt <+: normalizeGitHubUrl "gitlab.com/acme/widget".toList) := by
  exact ⟨by decide, by decide, by decide⟩

/-- C5 (amended): a protocol is prefixed only to bare paths starting with
`github.com`; for every non-empty bare `github.com/owner/repo` URL the
result starts with `https://`, and for every non-empty input the result
ends with `.git`. -/
theorem normalizeGitHubUrl_bare_github_and_extension :
    (∀ u : List Char, u ≠ [] → ghPre <+: u → httpsProt <+: normalizeGitHubUrl u)
    ∧ (∀ u : List Char, u ≠ [] → dotGit <:+ normalizeGitHubUrl u) := by
  constructor
  · intro u hu hg
    have h1 : ¬ (gitProt <+: u) := prefix_incomp hg (by decide) (by decide)
    have h2 : ¬ (sshPre <+: u) := prefix_incomp hg (by decide) (by decide)
    have h3 : ¬ (httpsProt <+: u) := prefix_incomp hg (by decide) (by decide)
    have h4 : ¬ (httpProt <+: u) := prefix_incomp hg (by decide) (by decide)
    unfold normalizeGitHubUrl replacePrefix normStep3 normStep4
    rw [if_neg hu, if_neg h1, if_neg h2, if_pos (And.intro h3 h4), if_pos hg]
    by_cases hs : dotGit <:+ httpsProt ++ u
    · rw [if_pos hs]
      exact List.prefix_append _ _
    · rw [if_neg hs]
      exact (List.prefix_append httpsProt u).trans (List.prefix_append _ dotGit)
  · intro u hu
    exact (normalizeGitHubUrl_normalized u hu).2.2.2.2

/-- Witness for C5 (amended): the bare GitHub URL gets the protocol and the
extension. -/
theorem normalizeGitHubUrl_bare_github_witness :
    httpsProt <+: normalizeGitHubUrl "github.com/acme/widget".toList ∧
    dotGit <:+ normalizeGitHubUrl "github.com/acme/widget".toList :=
  ⟨normalizeGitHubUrl_bare_github_and_extension.1 "github.com/acme/widget".toList
      (by decide) (by decide),
    normalizeGitHubUrl_bare_github_and_extension.2 "github.com/acme/widget".toList (by decide)⟩

/-! ## Repository-name extraction (`CodeThreatAction.extractRepoName`) -/

/-- `"git@"`. -/
def gitAt : List Char := "git@".toList

/-- `"ssh://"`. -/
def sshProt : List Char := "ssh://".toList

/-- Strip a prefix when present (`u.replace(/^pat/, '')`). -/
def stripPre (p u : List Char) : List Char :=
  if p <+: u then u.drop p.length else u

/-- Strip the `.git` suffix when present (`u.replace(/\.git$/, '')`). -/
def stripDotGit (u : List Char) : List Char :=
  if dotGit <:+ u then u.take (u.length - 4) else u

/-- Strip a leading protocol (`u.replace(/^(https?|git|ssh):\/\//, '')`). -/
def stripProtocol (u : List Char) : List Char :=
  if httpsProt <+: u then u.drop 8
  else if httpProt <+: u then u.drop 7
  else if gitProt <+: u then u.drop 6
  else if sshProt <+: u then u.drop 6
  else u

/-- A character of the regex class `[\w-]`. -/
def isWordChar (c : Char) : Bool :=
  c.isAlphanum ∨ c = '_' ∨ c = '-'

/-- Try the regex `github\.com[:/][\w-]+\/([\w-]+)` anchored at the start of
`s`, returning the capture group. -/
def matchGithubAt (s : List Char) : Option (List Char) :=
  if ghPre <+: s then
    match s.drop 10 with
    | [] => none
    | c :: rest =>
      if c = ':' ∨ c = '/' then
        let r1 := rest.takeWhile isWordChar
        if r1 = [] then none
        else
          match rest.drop r1.length with
          | '/' :: rest2 =>
            let r2 := rest2.takeWhile isWordChar
            if r2 = [] then none else some r2
          | _ => none
      else none
  else none

/-- Unanchored regex search: scan left to right for the first position where
`matchGithubAt` succeeds (the semantics of `String.prototype.match`). -/
def githubSearch : List Char → Option (List Char)
  | [] => none
  | c :: t =>
    match matchGithubAt (c :: t) with
    | some r => some r
    | none => githubSearch t

/-- The cleaned URL built by `extractRepoName`: drop the `.git` extension,
the protocol and a leading `git@`. -/
def cleanedUrl (url : List Char) : List Char :=
  stripPre gitAt (stripProtocol (stripDotGit url))

/-- The last non-empty `/`-separated segment, if any
(`cleanUrl.split('/').filter(s => s.length > 0)`). -/
def lastSegment (u : List Char) : Option (List Char) :=
  ((u.splitOn '/').filter (fun s => ¬ s = [])).getLast?

/-- `"unknown-repository"`. -/
def unknownRepo : List Char := "unknown-repository".toList

/-- Shallow embedding of `CodeThreatAction.extractRepoName`
(`src/lib/action.ts`): empty input falls back immediately; otherwise match
the GitHub owner/repo pattern against the cleaned URL, falling back to its
last non-empty path segment, and finally to `"unknown-repository"`. -/
def extractRepoName (url : List Char) : List Char :=
  if url = [] then unknownRepo
  else
    match githubSearch (cleanedUrl url) with
    | some name => name
    | none =>
      match lastSegment (cleanedUrl url) with
      | some s => s
      | none => unknownRepo

/-- C6: `extractRepoName` returns `widget` for the canonical HTTPS URL; it
returns `unknown-repository` for the empty string and for every URL whose
cleaned form matches no GitHub pattern and has no non-empty path segment. -/
theorem extractRepoName_spec :
    extractRepoName "https://github.com/acme/widget.git".toList = "widget".toList
    ∧ extractRepoName "".toList = unknownRepo
    ∧ (∀ url : List Char, githubSearch (cleanedUrl url) = none →
        lastSegment (cleanedUrl url) = none → extractRepoName url = unknownRepo) := by
  refine ⟨by decide, by decide, ?_⟩
  intro url hg hl
  unfold extractRepoName
  by_cases hu : url = []
  · rw [if_pos hu]
  · rw [if_neg hu, hg, hl]

/-- Witness for C6: a URL made only of slashes has no recognizable segment
and falls back to `unknown-repository`. -/
theorem extractRepoName_witness :
    extractRepoName "///".toList = unknownRepo :=
  extractRepoName_spec.2.2 "///".toList (by decide) (by decide)

/-! ## Violation-type bucketing (`CodeThreatAction.getViolationTypeFriendlyName`)

For this function JS strings are embedded as lists of code points
(`List Nat`) so that the ASCII case maps are plain arithmetic. -/

/-- JS `toUpperCase` on one ASCII code point. -/
def jsUpper (n : Nat) : Nat :=
  if 97 ≤ n ∧ n ≤ 122 then n - 32 else n

/-- JS `toLowerCase` on one ASCII code point. -/
def jsLower (n : Nat) : Nat :=
  if 65 ≤ n ∧ n ≤ 90 then n + 32 else n

/-- Code points of a string literal. -/
def codes (s : String) : List Nat :=
  s.toList.map Char.toNat

/-- Shallow embedding of `getViolationTypeFriendlyName`
(`src/lib/action.ts`): switch on `type.toUpperCase()` over the five
recognized buckets (`SCA`, `SAST`/`AGENTIC_SAST`, `SECRET`/`SECRETS`,
`IAC`, `SBOM`); the default arm title-cases the input
(`type.substring(0,1).toUpperCase() + type.substring(1).toLowerCase()`). -/
def getViolationTypeFriendlyName (type : List Nat) : List Nat :=
  let u := type.map jsUpper
  if u = codes "SCA" then codes "📦 Dependencies"
  else if u = codes "SAST" ∨ u = codes "AGENTIC_SAST" then codes "🔒 Security Issues"
  else if u = codes "SECRET" ∨ u = codes "SECRETS" then codes "🔑 Secrets"
  else if u = codes "IAC" then codes "☁️ Infrastructure"
  else if u = codes "SBOM" then codes "📋 Software Bill of Materials"
  else (type.take 1).map jsUpper ++ (type.drop 1).map jsLower

/-- Code points that agree after upper-casing also agree after
lower-casing. -/
lemma jsUpper_eq_imp_jsLower_eq (a b : Nat) (h : jsUpper a = jsUpper b) :
    jsLower a = jsLower b := by
  unfold jsUpper at h
  unfold jsLower
  split at h <;> split at h <;> split <;> split <;> omega

/-- Lists of code points that agree after upper-casing also agree after
lower-casing. -/
lemma map_jsUpper_eq_imp_map_jsLower_eq :
    ∀ s t : List Nat, s.map jsUpper = t.map jsUpper → s.map jsLower = t.map jsLower := by
  intro s
  induction s with
  | nil =>
    intro t h
    cases t with
    | nil => rfl
    | cons b tb => exact absurd h (by simp)
  | cons a ta ih =>
    intro t h
    cases t with
    | nil => exact absurd h (by simp)
    | cons b tb =>
      simp only [List.map_cons, List.cons.injEq] at h ⊢
      exact ⟨jsUpper_eq_imp_jsLower_eq a b h.1, ih tb h.2⟩

/-- C7: violation-type bucketing is case-insensitive (two strings equal up
to letter case get the same bucket) and maps `sast`, `SAST` and
`Agentic_Sast` to the security-issues bucket, `secret` and `secrets` to the
secrets bucket, and the unrecognized `foo` to title-cased `Foo`. -/
theorem getViolationTypeFriendlyName_spec :
    (∀ s t : List Nat, s.map jsUpper = t.map jsUpper →
      getViolationTypeFriendlyName s = getViolationTypeFriendlyName t)
    ∧ getViolationTypeFriendlyName (codes "sast") = codes "🔒 Security Issues"
    ∧ getViolationTypeFriendlyName (codes "SAST") = codes "🔒 Security Issues"
    ∧ getViolationTypeFriendlyName (codes "Agentic_Sast") = codes "🔒 Security Issues"
    ∧ getViolationTypeFriendlyName (codes "secret") = codes "🔑 Secrets"
    ∧ getViolationTypeFriendlyName (codes "secrets") = codes "🔑 Secrets"
    ∧ getViolationTypeFriendlyName (codes "foo") = codes "Foo" := by
  refine ⟨?_, by decide, by decide, by decide, by decide, by decide, by decide⟩
  intro s t h
  have hlow := map_jsUpper_eq_imp_map_jsLower_eq s t h
  unfold getViolationTypeFriendlyName
  rw [List.map_take, List.map_take, List.map_drop, List.map_drop, h, hlow]

/-- Witness for C7: two mixed-case spellings of `secret` get the same
bucket. -/
theorem getViolationTypeFriendlyName_witness :
    getViolationTypeFriendlyName (codes "SeCrEt") =
      getViolationTypeFriendlyName (codes "sECReT") :=
  getViolationTypeFriendlyName_spec.1 (codes "SeCrEt") (codes "sECReT") (by decide)

/-! ## SARIF validation and upload (`src/lib/sarif-uploader.ts`) -/

/-- A parsed JSON value (plus `undefined` to model absent properties). -/
inductive JsValue where
  | undefined
  | null
  | bool (b : Bool)
  | num (n : Int)
  | str (s : String)
  | arr (elems : List JsValue)
  | obj (fields : List (String × JsValue))

/-- JS property access `v[k]`: `undefined` when absent or when `v` is not an
object. -/
def getField (v : JsValue) (k : String) : JsValue :=
  match v with
  | .obj fields =>
    match fields.lookup k with
    | some x => x
    | none => .undefined
  | _ => .undefined

/-- JS truthiness. -/
def truthy : JsValue → Bool
  | .undefined => false
  | .null => false
  | .bool b => b
  | .num n => decide (n ≠ 0)
  | .str s => decide (s ≠ "")
  | .arr _ => true
  | .obj _ => true

/-- `Array.isArray`. -/
def isArray : JsValue → Bool
  | .arr _ => true
  | _ => false

/-- Warning emitted for an empty `runs` list. -/
def emptyRunsWarning : String :=
  "SARIF file contains no runs - this may indicate no results were found"

/-- Shallow embedding of `SarifUploader.validateSarifFormat`: reject a falsy
`$schema`, then a falsy `version`, then a non-array `runs`; an empty `runs`
array passes with a warning.  Returns the list of warnings on success. -/
def validateSarifFormat (sarifData : JsValue) : Except String (List String) :=
  if ¬ truthy (getField sarifData "$schema") then
    .error "Invalid SARIF: Missing $schema property"
  else if ¬ truthy (getField sarifData "version") then
    .error "Invalid SARIF: Missing version property"
  else
    match getField sarifData "runs" with
    | .arr runs => .ok (if runs.isEmpty then [emptyRunsWarning] else [])
    | _ => .error "Invalid SARIF: Missing or invalid runs array"

/-- Does the JS error message contain the distinguished substring
`Advanced Security`. -/
def mentionsAdvSec (e : String) : Bool :=
  decide ("Advanced Security".toList <:+: e.toList)

/-- Error text for a repository without Advanced Security. -/
def advSecError : String :=
  "GitHub Advanced Security is required for SARIF upload. Please enable it in repository settings or set upload-sarif: false"

/-- Shallow embedding of `SarifUploader.uploadSarif`: inside the `try`
block, a missing file or invalid SARIF throws before the network call
(`networkUpload` is the outcome of the GitHub API call, consulted only when
validation passes); the `catch` block rewraps the error message. -/
def uploadSarif (fileExists : Bool) (sarifFilePath : String) (sarifData : JsValue)
    (networkUpload : Except String Unit) : Except String Unit :=
  let inner : Except String Unit :=
    if ¬ fileExists then .error ("SARIF file not found: " ++ sarifFilePath)
    else
      match validateSarifFormat sarifData with
      | .error e => .error e
      | .ok _ => networkUpload
  match inner with
  | .ok _ => .ok ()
  | .error e =>
    if mentionsAdvSec e then .error advSecError
    else .error ("SARIF upload failed: " ++ e)

/-- C8: SARIF validation errors on a payload whose `$schema` is missing
(falsy), whose `version` is missing (falsy), or whose `runs` is absent or
not a list; when all three checks pass and `runs` is the empty list it
succeeds with only the empty-runs warning; and when validation fails the
upload outcome is independent of the network call (the error is raised
before any network activity). -/
theorem validateSarifFormat_spec :
    ∀ d : JsValue,
      (truthy (getField d "$schema") = false → isErr (validateSarifFormat d) = true)
      ∧ (truthy (getField d "version") = false → isErr (validateSarifFormat d) = true)
      ∧ (isArray (getField d "runs") = false → isErr (validateSarifFormat d) = true)
      ∧ (truthy (getField d "$schema") = true → truthy (getField d "version") = true →
          getField d "runs" = .arr [] → validateSarifFormat d = .ok [emptyRunsWarning])
      ∧ (∀ (path : String) (net1 net2 : Except String Unit),
          isErr (validateSarifFormat d) = true →
          uploadSarif true path d net1 = uploadSarif true path d net2) := by
  intro d
  refine ⟨?_, ?_, ?_, ?_, ?_⟩
  · intro h
    unfold validateSarifFormat
    rw [if_pos (by rw [h]; decide)]
    rfl
  · intro h
    unfold validateSarifFormat
    by_cases h1 : truthy (getField d "$schema") = true
    · rw [if_neg (by rw [h1]; decide), if_pos (by rw [h]; decide)]
      rfl
    · rw [if_pos (by simpa using h1)]
      rfl
  · intro h
    unfold validateSarifFormat
    by_cases h1 : truthy (getField d "$schema") = true
    · by_cases h2 : truthy (getField d "version") = true
      · rw [if_neg (by rw [h1]; decide), if_neg (by rw [h2]; decide)]
        cases hr : getField d "runs" with
        | arr runs => rw [hr] at h; exact absurd h (by simp [isArray])
        | undefined => rfl
        | null => rfl
        | bool b => rfl
        | num n => rfl
        | str s => rfl
        | obj fields => rfl
      · rw [if_neg (by rw [h1]; decide), if_pos (by simpa using h2)]
        rfl
    · rw [if_pos (by simpa using h1)]
      rfl
  · intro h1 h2 hr
    unfold validateSarifFormat
    rw [if_neg (by rw [h1]; decide), if_neg (by rw [h2]; decide), hr]
    rfl
  · intro path net1 net2 h
    unfold uploadSarif
    cases hv : validateSarifFormat d with
    | ok w => rw [hv] at h; exact absurd h (by simp)
    | error e => simp

/-- Witness for C8: a payload with schema, version and empty runs passes
with only the warning; one missing the version errors; validation failure
makes the upload outcome independent of the network result. -/
theorem validateSarifFormat_witness :
    validateSarifFormat (.obj [("$schema", .str "https://json.schemastore.org/sarif-2.1.0.json"),
        ("version", .str "2.1.0"), ("runs", .arr [])]) = .ok [emptyRunsWarning]
    ∧ isErr (validateSarifFormat (.obj [("$schema", .str "x")])) = true
    ∧ uploadSarif true "r.sarif" (.obj []) (.ok ()) =
        uploadSarif true "r.sarif" (.obj []) (.error "HTTP 502") := by
  refine ⟨?_, ?_, ?_⟩
  · exact (validateSarifFormat_spec _).2.2.2.1 rfl rfl rfl
  · exact (validateSarifFormat_spec _).2.1 rfl
  · exact (validateSarifFormat_spec _).2.2.2.2 "r.sarif" (.ok ()) (.error "HTTP 502") rfl

/-! ## Scan orchestrator (`CodeThreatAction`, `src/lib/action.ts`)

The remote client (`CodeThreatApiClient`) and the GitHub API are external
collaborators; their per-run outcomes are a `ClientBehavior` record.  The
pipeline itself — stage order, error wrapping, the conditional SARIF upload
whose failure is downgraded to a warning, and the final threshold check —
is embedded faithfully. -/

/-- Summary counts attached to an exported scan. -/
structure ScanSummary where
  total : Int
  critical : Int
  high : Int
  medium : Int
  low : Int
  deriving Repr, DecidableEq

/-- Data returned by `exportScanResults`. -/
structure ExportData where
  summary : Option ScanSummary
  results : String
  repositoryId : String
  securityScore : Option Int
  scanDuration : Option Int
  deriving Repr, DecidableEq

/-- `importRepository` result (both the `alreadyExists` and the
auto-imported branch return `repository.id`). -/
structure ImportResult where
  alreadyExists : Bool
  repoId : String
  deriving Repr, DecidableEq

/-- `runScan` result. -/
structure ScanRunResult where
  scanId : String
  synchronous : Bool
  duration : Option Int
  deriving Repr, DecidableEq

/-- Per-run outcomes of the external collaborators: the four remote-client
calls, the GitHub SARIF upload, and `path.resolve`. -/
structure ClientBehavior where
  auth : Except String Unit
  importRepo : Except String ImportResult
  runScan : Except String ScanRunResult
  exportResults : Except String ExportData
  sarifUpload : Except String Unit
  resolvePath : String → String

/-- The `Omit<ActionOutputs, 'repositoryId' | 'scanId'>` record built by
`processResults`. -/
structure ProcessedResults where
  resultsFile : String
  violationCount : Int
  criticalCount : Int
  highCount : Int
  mediumCount : Int
  lowCount : Int
  securityScore : Option Int
  scanDuration : Option Int
  scanUrl : String
  deriving Repr, DecidableEq

/-- Mirror of the TypeScript `ActionOutputs` interface. -/
structure ActionOutputs where
  scanId : String
  repositoryId : String
  resultsFile : String
  violationCount : Int
  criticalCount : Int
  highCount : Int
  mediumCount : Int
  lowCount : Int
  securityScore : Option Int
  scanDuration : Option Int
  scanUrl : String
  deriving Repr, DecidableEq

/-- A log line; only the levels the claims observe are distinguished. -/
inductive LogLine where
  | info (msg : String)
  | warn (msg : String)
  deriving Repr, DecidableEq

/-- `validateAuthentication`: wrap the client error. -/
def validateAuthentication (env : ClientBehavior) : Except String Unit :=
  match env.auth with
  | .ok _ => .ok ()
  | .error e => .error ("Authentication failed: " ++ e)

/-- The troubleshooting tail appended to a failed import. -/
def importTroubleshooting (inputs : ActionInputs) : String :=
  "\nOriginal URL: " ++ inputs.repositoryUrl ++
    "\nNormalized URL: " ++ (normalizeGitHubUrl inputs.repositoryUrl.toList).asString ++
    "\nOrganization: " ++ inputs.organizationSlug ++
    "\n\n💡 Troubleshooting:" ++
    "\n1. Verify the repository URL is correct" ++
    "\n2. Check that the organization slug is correct" ++
    "\n3. Ensure your API key has permission to import repositories" ++
    "\n4. Import the repository manually via CodeThreat web interface first" ++
    "\n5. Make sure the repository exists in your CodeThreat organization" ++
    "\n\n🔗 The backend supports flexible URL matching for GitHub repositories."

/-- `setupRepository`: both import outcomes yield the repository id; a
client failure is wrapped twice (inner `Repository import failed`, outer
`Repository setup failed`). -/
def setupRepository (inputs : ActionInputs) (env : ClientBehavior) : Except String String :=
  match env.importRepo with
  | .ok res => .ok res.repoId
  | .error e =>
    .error ("Repository setup failed: " ++ "Repository import failed: " ++ e ++
      importTroubleshooting inputs)

/-- `executeScan`: returns the scan id; the violation-type breakdown fetch
is best-effort logging only (caught and swallowed in the source). -/
def executeScan (env : ClientBehavior) : Except String String :=
  match env.runScan with
  | .ok r => .ok r.scanId
  | .error e => .error ("Scan execution failed: " ++ e)

/-- `generateScanUrl`: rewrite the API server URL to the dashboard URL and
append organization and scan id (`repositoryId` is accepted but unused, as
in the source). -/
def generateScanUrl (inputs : ActionInputs) (scanId : String) (repositoryId : String) : String :=
  let baseUrl := (replaceFirst "api.".toList "app.".toList
    (replaceFirst "/api".toList [] inputs.serverUrl.toList)).asString
  baseUrl ++ "/" ++ inputs.organizationSlug ++ "/scans/" ++ scanId

/-- The `ProcessedResults` built from a successful export: severity counts
default to zero when the summary is absent. -/
def processedOf (inputs : ActionInputs) (resolve : String → String) (scanId : String)
    (ed : ExportData) : ProcessedResults :=
  let summary := ed.summary.getD { total := 0, critical := 0, high := 0, medium := 0, low := 0 }
  { resultsFile := resolve inputs.outputFile
    violationCount := summary.total
    criticalCount := summary.critical
    highCount := summary.high
    mediumCount := summary.medium
    lowCount := summary.low
    securityScore := ed.securityScore
    scanDuration := ed.scanDuration
    scanUrl := generateScanUrl inputs scanId ed.repositoryId }

/-- `processResults`: export, write the file, extract the summary. -/
def processResults (inputs : ActionInputs) (env : ClientBehavior) (scanId : String) :
    Except String ProcessedResults :=
  match env.exportResults with
  | .error e => .error ("Results processing failed: " ++ e)
  | .ok ed => .ok (processedOf inputs env.resolvePath scanId ed)

/-- `uploadSarifResults`: the SARIF upload never propagates an error — a
failure is logged as a warning and the run continues. -/
def uploadSarifResults (env : ClientBehavior) : List LogLine :=
  match env.sarifUpload with
  | .ok _ =>
    [.info "✅ SARIF results uploaded successfully",
     .info "Results will appear in the GitHub Security tab"]
  | .error e =>
    [.warn ("SARIF upload failed: " ++ e),
     .info "Scan results are still available in the output file"]

/-- Render a JS number for an error message. -/
def jsNumToString : Option Int → String
  | none => "NaN"
  | some n => toString n

/-- Shallow embedding of `checkFailureConditions`: fail on critical, then on
high, then on a positive max-violations threshold strictly exceeded. -/
def checkFailureConditions (inputs : ActionInputs) (results : ProcessedResults) :
    Except String Unit :=
  if inputs.failOnCritical && decide (0 < results.criticalCount) then
    .error ("Build failed: " ++ toString results.criticalCount ++
      " critical vulnerabilities found")
  else if inputs.failOnHigh && decide (0 < results.highCount) then
    .error ("Build failed: " ++ toString results.highCount ++
      " high severity vulnerabilities found")
  else if jsGt inputs.maxViolations 0 && jsGtNum results.violationCount inputs.maxViolations then
    .error ("Build failed: " ++ toString results.violationCount ++
      " violations exceed maximum allowed (" ++ jsNumToString inputs.maxViolations ++ ")")
  else .ok ()

/-- Shallow embedding of `CodeThreatAction.execute`: the six ordered stages;
stages 1–4 abort on failure; stage 5 (SARIF upload) runs only when enabled,
the format is `sarif` and a results file was produced, and contributes log
lines but never an error; stage 6 is the threshold check. -/
def execute (inputs : ActionInputs) (env : ClientBehavior) :
    Except String ActionOutputs × List LogLine :=
  match validateAuthentication env with
  | .error e => (.error e, [])
  | .ok _ =>
    match setupRepository inputs env with
    | .error e => (.error e, [])
    | .ok repositoryId =>
      match executeScan env with
      | .error e => (.error e, [])
      | .ok scanId =>
        match processResults inputs env scanId with
        | .error e => (.error e, [])
        | .ok results =>
          let uploadLogs :=
            if inputs.uploadSarif = true ∧ inputs.outputFormat = "sarif" ∧
                results.resultsFile ≠ "" then
              uploadSarifResults env
            else []
          match checkFailureConditions inputs results with
          | .error e => (.error e, uploadLogs)
          | .ok _ =>
            (.ok { scanId := scanId
                   repositoryId := repositoryId
                   resultsFile := results.resultsFile
                   violationCount := results.violationCount
                   criticalCount := results.criticalCount
                   highCount := results.highCount
                   mediumCount := results.mediumCount
                   lowCount := results.lowCount
                   securityScore := results.securityScore
                   scanDuration := results.scanDuration
                   scanUrl := results.scanUrl }, uploadLogs)

/-- The error thrown by the `SarifUploader` constructor when no GitHub token
is available. -/
def ghTokenError : String :=
  "GitHub token is required for SARIF upload. Please add \"github-token: $\x7b\x7b secrets.GITHUB_TOKEN \x7d\x7d\" to action inputs or ensure proper permissions are set."

/-- Shallow embedding of the `SarifUploader` constructor: the token is the
`github-token` input or, when that is empty, the `GITHUB_TOKEN` environment
variable; a falsy token throws. -/
def sarifUploaderCtor (githubTokenInput : String) (envGithubToken : Option String) :
    Except String Unit :=
  let token : Option String :=
    if githubTokenInput = "" then envGithubToken else some githubTokenInput
  match token with
  | none => .error ghTokenError
  | some t => if t = "" then .error ghTokenError else .ok ()

/-- Shallow embedding of the `CodeThreatAction` constructor: it constructs
the `SarifUploader` unconditionally, whatever the inputs say about
uploading. -/
def codeThreatActionCtor (inputs : ActionInputs) (githubTokenInput : String)
    (envGithubToken : Option String) : Except String Unit :=
  sarifUploaderCtor githubTokenInput envGithubToken

/-- The run as driven by `src/index.ts` after input parsing: construct the
action (which may already throw), then execute the pipeline. -/
def runAction (inputs : ActionInputs) (githubTokenInput : String)
    (envGithubToken : Option String) (env : ClientBehavior) :
    Except String ActionOutputs × List LogLine :=
  match codeThreatActionCtor inputs githubTokenInput envGithubToken with
  | .error e => (.error e, [])
  | .ok _ => execute inputs env

/-- C1: after a successful scan and export, `checkFailureConditions` raises
when fail-on-critical is enabled and the critical count is positive; raises
when a positive max-violations threshold is strictly exceeded; and returns
without raising whenever no enabled check is violated (in particular when
the critical count is 0, and when the violation count equals the threshold —
the boundary passes). -/
theorem checkFailureConditions_spec :
    ∀ (inputs : ActionInputs) (r : ProcessedResults),
      (inputs.failOnCritical = true → 0 < r.criticalCount →
        isErr (checkFailureConditions inputs r) = true)
      ∧ (∀ m : Int, inputs.maxViolations = some m → 0 < m → m < r.violationCount →
          isErr (checkFailureConditions inputs r) = true)
      ∧ ((inputs.failOnCritical = false ∨ r.criticalCount ≤ 0) →
          (inputs.failOnHigh = false ∨ r.highCount ≤ 0) →
          (∀ m : Int, inputs.maxViolations = some m → 0 < m → r.violationCount ≤ m) →
          checkFailureConditions inputs r = .ok ()) := by
  intro inputs r
  refine ⟨?_, ?_, ?_⟩
  · intro h1 h2
    unfold checkFailureConditions
    rw [if_pos (by rw [h1]; simpa using h2)]
    rfl
  · intro m hm h0 hv
    unfold checkFailureConditions
    by_cases c1 : (inputs.failOnCritical && decide (0 < r.criticalCount)) = true
    · rw [if_pos c1]
      rfl
    · rw [if_neg c1]
      by_cases c2 : (inputs.failOnHigh && decide (0 < r.highCount)) = true
      · rw [if_pos c2]
        rfl
      · rw [if_neg c2]
        have c3 : (jsGt inputs.maxViolations 0 &&
            jsGtNum r.violationCount inputs.maxViolations) = true := by
          rw [hm]
          simp only [jsGt, jsGtNum, Bool.and_eq_true, decide_eq_true_eq]
          exact ⟨h0, hv⟩
        rw [if_pos c3]
        rfl
  · intro hc hh hm
    unfold checkFailureConditions
    have c1 : (inputs.failOnCritical && decide (0 < r.criticalCount)) = false := by
      rcases hc with h | h
      · rw [h]
        rfl
      · have h2 : ¬ (0 < r.criticalCount) := by omega
        simp [h2]
    have c2 : (inputs.failOnHigh && decide (0 < r.highCount)) = false := by
      rcases hh with h | h
      · rw [h]
        rfl
      · have h2 : ¬ (0 < r.highCount) := by omega
        simp [h2]
    have c3 : (jsGt inputs.maxViolations 0 &&
        jsGtNum r.violationCount inputs.maxViolations) = false := by
      cases hmv : inputs.maxViolations with
      | none => rfl
      | some m =>
        by_cases h0 : 0 < m
        · have hv := hm m hmv h0
          have h2 : ¬ (m < r.violationCount) := by omega
          simp [jsGt, jsGtNum, h2]
        · simp [jsGt, jsGtNum, h0]
    rw [if_neg (by simp [c1]), if_neg (by simp [c2]), if_neg (by simp [c3])]

/-- A fixed, fully valid configuration used by concrete witnesses. -/
def cfgBase : ActionInputs :=
  { apiKey := "test-api-key"
    serverUrl := "https://api.codethreat.com"
    organizationSlug := "acme"
    repositoryUrl := "https://github.com/acme/widget.git"
    branch := "main"
    scanTypes := []
    waitForCompletion := true
    timeout := some 43200
    pollInterval := some 30
    outputFormat := "sarif"
    outputFile := "codethreat-results.sarif"
    uploadSarif := true
    failOnCritical := false
    failOnHigh := false
    maxViolations := some 0
    skipImport := false
    verbose := false }

/-- Fixed processed results used by concrete witnesses. -/
def resBase : ProcessedResults :=
  { resultsFile := "codethreat-results.sarif"
    violationCount := 5
    criticalCount := 0
    highCount := 1
    mediumCount := 2
    lowCount := 2
    securityScore := some 87
    scanDuration := some 42
    scanUrl := "https://app.codethreat.com/acme/scans/scan-1" }

/-- Witness for C1: criticalCount 1 with fail-on-critical raises,
criticalCount 0 does not; max-violations 10 with 11 violations raises, with
exactly 10 it passes. -/
theorem checkFailureConditions_witness :
    isErr (checkFailureConditions { cfgBase with failOnCritical := true }
      { resBase with criticalCount := 1 }) = true
    ∧ checkFailureConditions { cfgBase with failOnCritical := true } resBase = .ok ()
    ∧ isErr (checkFailureConditions { cfgBase with maxViolations := some 10 }
        { resBase with violationCount := 11 }) = true
    ∧ checkFailureConditions { cfgBase with maxViolations := some 10 }
        { resBase with violationCount := 10 } = .ok () := by
  refine ⟨?_, ?_, ?_, ?_⟩
  · exact (checkFailureConditions_spec _ _).1 rfl (by decide)
  · exact (checkFailureConditions_spec _ _).2.2 (Or.inr (by decide)) (Or.inl rfl)
      (fun m hm h0 => by simp [cfgBase] at hm; omega)
  · exact (checkFailureConditions_spec _ _).2.1 10 rfl (by decide) (by decide)
  · exact (checkFailureConditions_spec _ _).2.2 (Or.inl rfl) (Or.inl rfl)
      (fun m hm h0 => by simp [cfgBase] at hm; simp [resBase]; omega)

/-- C3: when authentication, repository setup, scan and export succeed and
the threshold check passes, a failing SARIF upload leaves the returned
outputs identical to a successful upload, the pipeline completes without
raising, and (when the upload stage actually ran) the failure is logged as a
warning. -/
theorem sarifUploadFailureHarmless :
    ∀ (inputs : ActionInputs) (env : ClientBehavior) (e : String) (ir : ImportResult)
      (sr : ScanRunResult) (ed : ExportData),
      env.auth = .ok () → env.importRepo = .ok ir → env.runScan = .ok sr →
      env.exportResults = .ok ed →
      checkFailureConditions inputs (processedOf inputs env.resolvePath sr.scanId ed) = .ok () →
      ((execute inputs { env with sarifUpload := .error e }).1 =
          (execute inputs { env with sarifUpload := .ok () }).1
        ∧ isErr (execute inputs { env with sarifUpload := .error e }).1 = false
        ∧ (inputs.uploadSarif = true → inputs.outputFormat = "sarif" →
            env.resolvePath inputs.outputFile ≠ "" →
            LogLine.warn ("SARIF upload failed: " ++ e) ∈
              (execute inputs { env with sarifUpload := .error e }).2)) := by
  intro inputs env e ir sr ed hAuth hImp hScan hExp hChk
  have hexec : ∀ u : Except String Unit,
      execute inputs { env with sarifUpload := u } =
        (.ok { scanId := sr.scanId
               repositoryId := ir.repoId
               resultsFile := (processedOf inputs env.resolvePath sr.scanId ed).resultsFile
               violationCount := (processedOf inputs env.resolvePath sr.scanId ed).violationCount
               criticalCount := (processedOf inputs env.resolvePath sr.scanId ed).criticalCount
               highCount := (processedOf inputs env.resolvePath sr.scanId ed).highCount
               mediumCount := (processedOf inputs env.resolvePath sr.scanId ed).mediumCount
               lowCount := (processedOf inputs env.resolvePath sr.scanId ed).lowCount
               securityScore := (processedOf inputs env.resolvePath sr.scanId ed).securityScore
               scanDuration := (processedOf inputs env.resolvePath sr.scanId ed).scanDuration
               scanUrl := (processedOf inputs env.resolvePath sr.scanId ed).scanUrl },
          if inputs.uploadSarif = true ∧ inputs.outputFormat = "sarif" ∧
              (processedOf inputs env.resolvePath sr.scanId ed).resultsFile ≠ "" then
            uploadSarifResults { env with sarifUpload := u }
          else []) := by
    intro u
    unfold execute validateAuthentication setupRepository executeScan processResults
    simp only [hAuth, hImp, hScan, hExp, hChk]
  refine ⟨?_, ?_, ?_⟩
  · rw [hexec, hexec]
  · rw [hexec]
    rfl
  · intro h1 h2 h3
    rw [hexec]
    have hfile : (processedOf inputs env.resolvePath sr.scanId ed).resultsFile =
        env.resolvePath inputs.outputFile := rfl
    rw [if_pos ⟨h1, h2, by rw [hfile]; exact h3⟩]
    simp [uploadSarifResults]

/-- A run in which every external collaborator succeeds. -/
def envBase : ClientBehavior :=
  { auth := .ok ()
    importRepo := .ok { alreadyExists := true, repoId := "repo-1" }
    runScan := .ok { scanId := "scan-1", synchronous := true, duration := some 42 }
    exportResults := .ok
      { summary := some { total := 5, critical := 0, high := 1, medium := 2, low := 2 }
        results := "sarif-content"
        repositoryId := "repo-1"
        securityScore := some 87
        scanDuration := some 42 }
    sarifUpload := .ok ()
    resolvePath := fun s => s }

/-- Witness for C3: with the base configuration and a fully successful run,
a failing upload yields the same outputs as a successful one, no error, and
the warning is logged. -/
theorem sarifUploadFailureHarmless_witness :
    (execute cfgBase { envBase with sarifUpload := .error "boom" }).1 =
      (execute cfgBase { envBase with sarifUpload := .ok () }).1
    ∧ isErr (execute cfgBase { envBase with sarifUpload := .error "boom" }).1 = false
    ∧ LogLine.warn ("SARIF upload failed: " ++ "boom") ∈
        (execute cfgBase { envBase with sarifUpload := .error "boom" }).2 := by
  have h := sarifUploadFailureHarmless cfgBase envBase "boom" _ _ _ rfl rfl rfl rfl (by decide)
  exact ⟨h.1, h.2.1, h.2.2 rfl rfl (by decide)⟩

/-- C10: the orchestrator constructs the SARIF uploader unconditionally, so
when the `github-token` input is empty and `GITHUB_TOKEN` is unset (or
empty), the run fails with the token error before any pipeline stage — for
every configuration (in particular with upload-sarif disabled or a
non-sarif format) and for every client behavior (the authentication stage
is never consulted). -/
theorem sarifUploaderCtor_required :
    ∀ (inputs : ActionInputs) (envTok : Option String) (env : ClientBehavior),
      (envTok = none ∨ envTok = some "") →
      runAction inputs "" envTok env = (.error ghTokenError, []) := by
  intro inputs envTok env h
  unfold runAction codeThreatActionCtor sarifUploaderCtor
  rcases h with h | h <;> rw [h] <;> rfl

/-- Witness for C10: even with upload disabled, a JSON output format and a
client that would fail authentication, the missing token aborts the run
first. -/
theorem sarifUploaderCtor_required_witness :
    runAction { cfgBase with uploadSarif := false, outputFormat := "json" } "" none
      { envBase with auth := .error "bad credentials" } = (.error ghTokenError, []) :=
  sarifUploaderCtor_required { cfgBase with uploadSarif := false, outputFormat := "json" }
    none { envBase with auth := .error "bad credentials" } (Or.inl rfl)
